import Mathlib

/-!
Shallow embedding of the skeem interpreter core (src/types.rs, src/error.rs,
src/environment.rs, src/interpreter.rs) and proofs about it.

Modelling conventions, stated once:
* A `HeapObject` (`Rc<Box<Object>>`) is modelled as a natural-number address
  into a `store : List Obj` that only ever grows; the `Rc` itself is never
  deallocated while a model run inspects it, so dereferencing uses a default
  that no run below ever consults.
* `i64` payloads are modelled as `Int` (no claim below exercises overflow) and
  `f64` payloads as `Rat` (every float value appearing below is exactly
  representable; float arithmetic is never performed on the taken paths).
* `String::capacity` is carried as an explicit `cap : Nat` field because
  `Type::size_of` charges `capacity()` bytes for strings and symbols.
* Rust panics (`unwrap`, `expect`, integer division by zero, `panic!` calls
  spelled in the source) are modelled as an explicit `panic` result value.
* `HashMap` is modelled as an association list with unique keys
  (`scopeInsert` replaces); iteration order of a map only feeds operations
  whose result is order-independent in the claims below.
-/

namespace Skeem

/-- `ErrType` from src/error.rs. -/
inductive ErrType where
  | WrongType (wanted got : String)
  | WrongArgsNum (wanted got : Nat)
  | WrongMinArgsNum (min got : Nat)
  | NotCallable (t : String)
  | SymbolNotFound (name : String)
deriving DecidableEq

/-- `Err` from src/error.rs: an error kind plus a snapshot of the call trace. -/
structure Err where
  err_type : ErrType
  trace : List String
deriving DecidableEq

/-- Identifiers for the native primitives modelled here (the four arithmetic
folds of src/interpreter.rs; the remaining primitives are never reached by any
claim and no code in the repository ever registers a `Procedure::Primitive`). -/
inductive PrimId where
  | add
  | sub
  | mul
  | div
deriving DecidableEq

/-- `Type` from src/types.rs.  `Cons` holds the addresses of its elements;
`Procedure` is flattened into the `lam` (with optional captured environment,
parameter-list address and body address) and `prim` constructors. -/
inductive Ty where
  | bool (b : Bool)
  | int (n : Int)
  | float (q : Rat)
  | char (c : Char)
  | str (s : String) (cap : Nat)
  | sym (s : String) (cap : Nat)
  | cons (elems : List Nat)
  | lam (env : Option (List (String × Nat))) (params : Nat) (body : Nat)
  | prim (p : PrimId)
deriving DecidableEq

/-- `Type::size_of` from src/types.rs, on a 64-bit target: `bool` is 1 byte,
`i64`/`f64` are 8, `char` is 4, strings and symbols charge their capacity,
`LinkedList` and `Lambda` are three words (24 bytes), primitives are 0. -/
def Ty.size_of : Ty → Nat
  | .bool _ => 1
  | .int _ => 8
  | .float _ => 8
  | .char _ => 4
  | .str _ cap => cap
  | .sym _ cap => cap
  | .cons _ => 24
  | .lam _ _ _ => 24
  | .prim _ => 0

/-- `Object::get_type_string` from src/types.rs. -/
def Ty.type_string : Ty → String
  | .bool _ => "boolean"
  | .int _ => "integer"
  | .float _ => "float"
  | .char _ => "character"
  | .str _ _ => "string"
  | .cons _ => "list"
  | .lam _ _ _ => "procedure"
  | .prim _ => "procedure"
  | .sym _ _ => "symbol"

/-- `Object` from src/types.rs: a type tag plus the mark bit (`Cell<bool>`). -/
structure Obj where
  ty : Ty
  marked : Bool
deriving DecidableEq

/-- `Object::new` from src/types.rs: the mark bit starts out `true`
(`marked: Cell::new(true)`). -/
def Object.new (t : Ty) : Obj := ⟨t, true⟩

/-- Addresses an `Object::mark` call recurses into: every element of a `Cons`;
for a `Lambda` every value bound in the captured environment, then the
parameter list, then the body (`Lambda::mark` in src/types.rs).  All other
variants are mark leaves. -/
def children : Ty → List Nat
  | .cons es => es
  | .lam env ps bd => (match env with | some e => e.map Prod.snd | none => []) ++ [ps, bd]
  | _ => []

/-- Index lookup into the store (total model of `Rc` dereference /
`Vec` indexing). -/
def nthObj : List Obj → Nat → Option Obj
  | [], _ => none
  | o :: _, 0 => some o
  | _ :: t, n + 1 => nthObj t n

/-- Dereference a heap handle.  In the source a handle is an `Rc` and cannot
dangle; every state built below keeps all allocated objects in `store`, so the
default object is never consulted. -/
def deref (store : List Obj) (a : Nat) : Obj :=
  (nthObj store a).getD (Object.new (.int 0))

/-- Set the mark bit of the object at address `a` (`self.marked.set(true)`). -/
def setMark : List Obj → Nat → List Obj
  | [], _ => []
  | o :: t, 0 => ⟨o.ty, true⟩ :: t
  | o :: t, n + 1 => o :: setMark t n

/-- Clear the mark bit of the object at address `a`
(`obj.marked.set(false)` in the sweep loop). -/
def clearMark : List Obj → Nat → List Obj
  | [], _ => []
  | o :: t, 0 => ⟨o.ty, false⟩ :: t
  | o :: t, n + 1 => o :: clearMark t n

/-- Fuel bound for the mark phase: every unmarked object can be expanded at
most once, costing one step for itself plus one per child pushed. -/
def weight : List Obj → Nat
  | [] => 0
  | o :: t => (if o.marked then 0 else 1 + (children o.ty).length) + weight t

/-- The mark phase (`Object::mark` from src/types.rs) as a depth-first
traversal with an explicit work stack.  The mark-bit check comes first: an
already-marked object is skipped without recursing.  `fuel` is a shallow
embedding device; `markStack_sufficient` below shows that
`stack.length + weight store` steps always suffice, so the phase terminates on
every object graph, cyclic ones included. -/
def markStack : Nat → List Obj → List Nat → Option (List Obj)
  | _, store, [] => some store
  | 0, _, _ :: _ => none
  | fuel + 1, store, a :: rest =>
    match nthObj store a with
    | none => markStack fuel store rest
    | some o =>
      if o.marked then markStack fuel store rest
      else markStack fuel (setMark store a) (children o.ty ++ rest)

/-- One lexical scope: a `HashMap<Rc<String>, HeapObject>` as an association
list with unique keys. -/
abbrev Scope := List (String × Nat)

/-- `HashMap::insert`: bind or overwrite `k` in the scope. -/
def scopeInsert : Scope → String → Nat → Scope
  | [], k, v => [(k, v)]
  | (k', v') :: t, k, v =>
    if k' = k then (k, v) :: t else (k', v') :: scopeInsert t k v

/-- `HashMap::get`. -/
def scopeLookup : Scope → String → Option Nat
  | [], _ => none
  | (k', v') :: t, k => if k' = k then some v' else scopeLookup t k

/-- `Environment` from src/environment.rs: a `Vec` of scopes, index 0 the
root scope, the last element the innermost scope. -/
abbrev Env := List Scope

/-- `Environment::push`. -/
def Environment.push (env : Env) : Env := env ++ [[]]

/-- `Environment::insert_sym`: bind in the innermost scope
(`last_mut().unwrap()`).  The unwrap panics on an empty stack; every call site
modelled below inserts right after a push, so the empty case is unreachable
and returns the stack unchanged. -/
def Environment.insert_sym (env : Env) (k : String) (v : Nat) : Env :=
  match env with
  | [] => []
  | _ => env.dropLast ++ [scopeInsert (env.getLast?.getD []) k v]

/-- The Rust range `a..b`: the values `a, a+1, …, b-1`, empty when `a ≥ b`. -/
def rustRange (a b : Nat) : List Nat := (List.range (b - a)).map (a + ·)

/-- `Environment::find_sym` from src/environment.rs, transcribed exactly.
With a single scope it looks in `self.0[0]`; otherwise it iterates
`for i in self.0.len()-1..0`, which is the Rust range from `len-1` up to `0` —
an empty iteration whenever `len ≥ 2`. -/
def find_sym (env : Env) (name : String) : Except ErrType Nat :=
  if env.length = 1 then
    match scopeLookup (env.getD 0 []) name with
    | some v => .ok v
    | none => .error (.SymbolNotFound name)
  else
    match (rustRange (env.length - 1) 0).findSome?
        (fun i => scopeLookup (env.getD i []) name) with
    | some v => .ok v
    | none => .error (.SymbolNotFound name)

/-- Outcome of running a piece of interpreter code: an ordinary value, an
ordinary `Err` (Rust `Result::Err`), a Rust panic, or fuel exhaustion of the
shallow embedding (`out` never occurs in any theorem below). -/
inductive Res (α : Type) where
  | ok (v : α)
  | err (e : Err)
  | panic (msg : String)
  | out
deriving DecidableEq

/-- Outcome of a pure computation that can only panic. -/
inductive PRes (α : Type) where
  | ok (v : α)
  | panic (msg : String)
deriving DecidableEq

instance {ε α : Type} [DecidableEq ε] [DecidableEq α] : DecidableEq (Except ε α) := fun a b =>
  match a, b with
  | .ok x, .ok y =>
    if h : x = y then isTrue (by rw [h]) else isFalse (fun hc => h (by cases hc; rfl))
  | .error x, .error y =>
    if h : x = y then isTrue (by rw [h]) else isFalse (fun hc => h (by cases hc; rfl))
  | .ok _, .error _ => isFalse (fun hc => Except.noConfusion hc)
  | .error _, .ok _ => isFalse (fun hc => Except.noConfusion hc)

/-- The `Add for Object` impl from src/types.rs: integer/integer stays
integer, any integer/float mix promotes to float, anything else panics. -/
def objAdd : Ty → Ty → PRes Ty
  | .int n1, .int n2 => .ok (.int (n1 + n2))
  | .int n1, .float q2 => .ok (.float ((n1 : Rat) + q2))
  | .int _, _ => .panic "n2 is not a number"
  | .float q1, .int n2 => .ok (.float (q1 + (n2 : Rat)))
  | .float q1, .float q2 => .ok (.float (q1 + q2))
  | .float _, _ => .panic "n2 is not a number"
  | _, _ => .panic "n1 is not a number"

/-- The `Mul for Object` impl from src/types.rs. -/
def objMul : Ty → Ty → PRes Ty
  | .int n1, .int n2 => .ok (.int (n1 * n2))
  | .int n1, .float q2 => .ok (.float ((n1 : Rat) * q2))
  | .int _, _ => .panic "n2 is not a number"
  | .float q1, .int n2 => .ok (.float (q1 * (n2 : Rat)))
  | .float q1, .float q2 => .ok (.float (q1 * q2))
  | .float _, _ => .panic "n2 is not a number"
  | _, _ => .panic "n1 is not a number"

/-- The `Div for Object` impl from src/types.rs.  `n1/n2` on `i64` is Rust
truncated division and panics when `n2 = 0`; the float branches are exact
here (no theorem below takes them with a zero divisor, where `f64` would
yield an infinity). -/
def objDiv : Ty → Ty → PRes Ty
  | .int n1, .int n2 =>
    if n2 = 0 then .panic "attempt to divide by zero"
    else .ok (.int (Int.tdiv n1 n2))
  | .int n1, .float q2 => .ok (.float ((n1 : Rat) / q2))
  | .int _, _ => .panic "n2 is not a number"
  | .float q1, .int n2 => .ok (.float (q1 / (n2 : Rat)))
  | .float q1, .float q2 => .ok (.float (q1 / q2))
  | .float _, _ => .panic "n2 is not a number"
  | _, _ => .panic "n1 is not a number"

/-- Loop of `Object::add_list`: fold the operand objects with `+`, failing
`WrongType` on the first non-numeric element. -/
def add_fold (acc : Ty) : List Ty → PRes (Except ErrType Ty)
  | [] => .ok (.ok acc)
  | t :: rest =>
    match t with
    | .float n =>
      (match objAdd acc (.float n) with
       | .ok acc' => add_fold acc' rest
       | .panic m => .panic m)
    | .int n =>
      (match objAdd acc (.int n) with
       | .ok acc' => add_fold acc' rest
       | .panic m => .panic m)
    | other => .ok (.error (.WrongType "numberp" other.type_string))

/-- `Object::add_list` from src/types.rs: the fold starts at `Integer(0)`. -/
def add_list (nums : List Ty) : PRes (Except ErrType Ty) :=
  add_fold (.int 0) nums

/-- Loop of `Object::sub_list`: each operand is negated and added. -/
def sub_fold (acc : Ty) : List Ty → PRes (Except ErrType Ty)
  | [] => .ok (.ok acc)
  | t :: rest =>
    match t with
    | .float n =>
      (match objAdd acc (.float (-n)) with
       | .ok acc' => sub_fold acc' rest
       | .panic m => .panic m)
    | .int n =>
      (match objAdd acc (.int (-n)) with
       | .ok acc' => sub_fold acc' rest
       | .panic m => .panic m)
    | other => .ok (.error (.WrongType "numberp" other.type_string))

/-- `Object::sub_list` from src/types.rs: the fold starts at `Integer(0)`
and adds negated operands. -/
def sub_list (nums : List Ty) : PRes (Except ErrType Ty) :=
  sub_fold (.int 0) nums

/-- Loop of `Object::mul_list`. -/
def mul_fold (acc : Ty) : List Ty → PRes (Except ErrType Ty)
  | [] => .ok (.ok acc)
  | t :: rest =>
    match t with
    | .float n =>
      (match objMul acc (.float n) with
       | .ok acc' => mul_fold acc' rest
       | .panic m => .panic m)
    | .int n =>
      (match objMul acc (.int n) with
       | .ok acc' => mul_fold acc' rest
       | .panic m => .panic m)
    | other => .ok (.error (.WrongType "numberp" other.type_string))

/-- `Object::mul_list` from src/types.rs: the fold starts at `Integer(0)`. -/
def mul_list (nums : List Ty) : PRes (Except ErrType Ty) :=
  mul_fold (.int 0) nums

/-- Loop of `Object::div_list`. -/
def div_fold (acc : Ty) : List Ty → PRes (Except ErrType Ty)
  | [] => .ok (.ok acc)
  | t :: rest =>
    match t with
    | .float n =>
      (match objDiv acc (.float n) with
       | .ok acc' => div_fold acc' rest
       | .panic m => .panic m)
    | .int n =>
      (match objDiv acc (.int n) with
       | .ok acc' => div_fold acc' rest
       | .panic m => .panic m)
    | other => .ok (.error (.WrongType "numberp" other.type_string))

/-- `Object::div_list` from src/types.rs: the fold starts at `Integer(0)`,
so the accumulator is the dividend of the very first division. -/
def div_list (nums : List Ty) : PRes (Except ErrType Ty) :=
  div_fold (.int 0) nums

/-- Result of one sweep pass: the store with survivors' marks cleared, the
surviving live list, the remaining accounted bytes and the reclaim count. -/
structure SweepOut where
  store : List Obj
  live : List Nat
  bytes : Nat
  count : Nat
deriving DecidableEq

/-- The sweep loop of `Interpreter::gc` (src/interpreter.rs): scan the live
vector in order; an unmarked object is unreachable — subtract its accounted
size and drop it (the `Rc`-exclusivity debug assertions are not modelled) —
while a marked object survives and has its mark cleared for the next cycle.
The source removes victims afterwards with `swap_remove`, which only permutes
the survivor order; survivors are kept in scan order here.  The `none` case
cannot arise (`live_objects` holds the `Rc`s themselves); it keeps the entry
untouched. -/
def sweep : List Obj → List Nat → Nat → SweepOut
  | store, [], bytes => ⟨store, [], bytes, 0⟩
  | store, a :: rest, bytes =>
    match nthObj store a with
    | none =>
      let r := sweep store rest bytes
      ⟨r.store, a :: r.live, r.bytes, r.count⟩
    | some o =>
      if o.marked then
        let r := sweep (clearMark store a) rest bytes
        ⟨r.store, a :: r.live, r.bytes, r.count⟩
      else
        let r := sweep store rest (bytes - o.ty.size_of)
        ⟨r.store, r.live, r.bytes, r.count + 1⟩

/-- `Interpreter` from src/interpreter.rs.  `nilA`/`trueA`/`falseA` are the
addresses of the three singletons, which the constructor creates with plain
`Rc::new` and therefore never appear in `live`. -/
structure Interp where
  store : List Obj
  live : List Nat
  fnStack : List String
  env : Env
  nilA : Nat
  trueA : Nat
  falseA : Nat
  gcDisabled : Bool
  bytesAlloc : Nat
  gcThreshold : Nat
deriving DecidableEq

/-- `Interpreter::new`: empty live set, one (root) scope, the three
singletons allocated outside the live set, GC enabled, threshold 1000. -/
def Interp.new : Interp :=
  { store := [Object.new (.cons []), Object.new (.bool true), Object.new (.bool false)]
    live := []
    fnStack := []
    env := [[]]
    nilA := 0
    trueA := 1
    falseA := 2
    gcDisabled := false
    bytesAlloc := 0
    gcThreshold := 1000 }

/-- `Interpreter::gc_disable`. -/
def Interp.gc_disable (st : Interp) : Interp := { st with gcDisabled := true }

/-- `Interpreter::gc_enable`. -/
def Interp.gc_enable (st : Interp) : Interp := { st with gcDisabled := false }

/-- The collector's root set: every value bound in every environment scope
(what `Environment::mark_all` iterates over). -/
def Interp.roots (st : Interp) : List Nat :=
  (st.env.map (fun sc => sc.map Prod.snd)).flatten

/-- `Environment::mark_all`: mark every value bound in every scope.  The fuel
handed to `markStack` is sufficient by `markStack_sufficient`, so the `getD`
fallback is never taken. -/
def Interp.mark_all (st : Interp) : Interp :=
  { st with store := (markStack (st.roots.length + weight st.store) st.store st.roots).getD st.store }

/-- `Interpreter::gc` from src/interpreter.rs: a no-op returning 0 while
collection is administratively disabled; otherwise mark all environment roots,
then sweep.  The threshold is not touched here. -/
def Interp.gc (st : Interp) : Interp × Nat :=
  if st.gcDisabled then (st, 0)
  else
    let st1 := st.mark_all
    let r := sweep st1.store st1.live st1.bytesAlloc
    ({ st1 with store := r.store, live := r.live, bytesAlloc := r.bytes }, r.count)

/-- First half of `Interpreter::new_object`: account the payload size; if the
counter now exceeds the threshold (`bytes_alloc > gc_threshold`), set the
threshold to half of the current (pre-sweep) counter and run `gc`. -/
def allocState (st : Interp) (t : Ty) : Interp :=
  let st1 := { st with bytesAlloc := st.bytesAlloc + t.size_of }
  if st1.gcThreshold < st1.bytesAlloc then
    ({ st1 with gcThreshold := st1.bytesAlloc / 2 }).gc.1
  else st1

/-- Second half of `Interpreter::new_object`: construct the object — born
with its mark bit set — at the next free address and push it onto the live
vector. -/
def pushObj (st2 : Interp) (t : Ty) : Interp :=
  { st2 with store := st2.store ++ [Object.new t], live := st2.live ++ [st2.store.length] }

/-- `Interpreter::new_object` from src/interpreter.rs: account the payload
size and possibly collect (`allocState`); then allocate (`pushObj`),
returning the new object's handle. -/
def Interp.new_object (st : Interp) (t : Ty) : Interp × Nat :=
  (pushObj (allocState st t) t, (allocState st t).store.length)

/-- `Interpreter::add` from src/interpreter.rs: run `Object::add_list` on the
argument list as received (no operand is evaluated), allocate the result on
success, wrap the `ErrType` with the current call trace on failure. -/
def Interp.add (st : Interp) (args : List Nat) : Interp × Res Nat :=
  match add_list (args.map (fun a => (deref st.store a).ty)) with
  | .panic m => (st, .panic m)
  | .ok (.error e) => (st, .err ⟨e, st.fnStack⟩)
  | .ok (.ok t) =>
    let r := st.new_object t
    (r.1, .ok r.2)

/-- `Interpreter::sub`. -/
def Interp.sub (st : Interp) (args : List Nat) : Interp × Res Nat :=
  match sub_list (args.map (fun a => (deref st.store a).ty)) with
  | .panic m => (st, .panic m)
  | .ok (.error e) => (st, .err ⟨e, st.fnStack⟩)
  | .ok (.ok t) =>
    let r := st.new_object t
    (r.1, .ok r.2)

/-- `Interpreter::mul`. -/
def Interp.mul (st : Interp) (args : List Nat) : Interp × Res Nat :=
  match mul_list (args.map (fun a => (deref st.store a).ty)) with
  | .panic m => (st, .panic m)
  | .ok (.error e) => (st, .err ⟨e, st.fnStack⟩)
  | .ok (.ok t) =>
    let r := st.new_object t
    (r.1, .ok r.2)

/-- `Interpreter::div`. -/
def Interp.div (st : Interp) (args : List Nat) : Interp × Res Nat :=
  match div_list (args.map (fun a => (deref st.store a).ty)) with
  | .panic m => (st, .panic m)
  | .ok (.error e) => (st, .err ⟨e, st.fnStack⟩)
  | .ok (.ok t) =>
    let r := st.new_object t
    (r.1, .ok r.2)

/-- Dispatch a `Procedure::Primitive` (`prim(c)` in `eval_cons`): the
primitive receives the list exactly as passed, operator element included. -/
def applyPrim (st : Interp) (p : PrimId) (args : List Nat) : Interp × Res Nat :=
  match p with
  | .add => st.add args
  | .sub => st.sub args
  | .mul => st.mul args
  | .div => st.div args

/-- The parameter-binding loop of `Interpreter::eval_lambda`, transcribed
exactly: for each element `supplied` of the *lambda's parameter list*, take
the next element of the *call expression* (an iterator that starts at the
operator position `exp[0]`), call `unwrap_sym` on it — which, as written in
src/types.rs, matches `Type::String` (not `Symbol`) and panics otherwise —
and bind that name to the parameter-list element. -/
def bindParams : Interp → List Nat → List Nat → PRes Interp
  | st, [], _ => .ok st
  | st, supplied :: ps, e :: es =>
    (match (deref st.store e).ty with
     | .str s _ => bindParams { st with env := Environment.insert_sym st.env s supplied } ps es
     | _ => .panic "object is not a string")
  | _, _ :: _, [] => .panic "called Option::unwrap on a None value"

/-- `Environment::pop`: `self.0.pop().expect(..)` — panics only when the
stack is already empty; otherwise it removes the innermost scope, the root
scope included. -/
def popScope (st : Interp) : PRes Interp :=
  match st.env with
  | [] => .panic "popping the root environment"
  | _ => .ok { st with env := st.env.dropLast }

/-- The four mutually recursive pieces of the evaluator, folded into a single
fueled function: `Interpreter::eval` (`expr`), `eval_cons` (`consForm`),
`eval_lambda` (`lambdaApp`) and the body loop inside `eval_lambda`
(`bodySeq`). -/
inductive Call where
  | expr (a : Nat)
  | consForm (c : List Nat)
  | lambdaApp (env : Option (List (String × Nat))) (params : Nat) (body : Nat) (exp : List Nat)
  | bodySeq (body : List Nat) (last : Res Nat)

/-- The evaluator of src/interpreter.rs.  Each Rust function call consumes
one unit of fuel; the structure of every case transcribes the corresponding
Rust function:

* `expr`: a `Cons` is evaluated as an application, a `Symbol` through
  `Environment::find_sym` (a failure is wrapped with the current call trace),
  everything else evaluates to itself.
* `consForm` (`eval_cons`): an empty list yields the nil singleton; otherwise
  the first element is evaluated (`try!`), the head's name is pushed onto the
  call trace when the head was a symbol that evaluated to a procedure, a
  primitive receives the *whole* list `c`, a lambda goes to `lambdaApp`, a
  non-procedure fails `NotCallable`; the trace entry is popped only on
  success.
* `lambdaApp` (`eval_lambda`): arity check against `exp.len() - 1`, push the
  call scope, push and fill the captured-environment scope *on top of it*
  when present, bind parameters (see `bindParams`), run the body; then —
  before inspecting anything else — the source calls `last.as_ref().unwrap()`,
  which panics when the body ended in an `Err`.  On an `Ok` lambda result a
  closure is built from `cur_env_pop()` (one pop) followed by the final
  `pop()`; an `Ok` primitive result skips both the closure branch and the
  `else if`, so only the final pop runs; any other `Ok` result pops the
  captured scope when one was pushed and then pops once more.
* `bodySeq`: evaluate each form, keeping the last value; the first failure
  breaks the loop and becomes `last`. -/
def evalStep : Nat → Interp → Call → Interp × Res Nat
  | 0, st, _ => (st, .out)
  | fuel + 1, st, .expr a =>
    (match (deref st.store a).ty with
     | .cons c => evalStep fuel st (.consForm c)
     | .sym s _ =>
       (match find_sym st.env s with
        | .ok v => (st, .ok v)
        | .error e => (st, .err ⟨e, st.fnStack⟩))
     | _ => (st, .ok a))
  | fuel + 1, st, .consForm c =>
    (match c with
     | [] => (st, .ok st.nilA)
     | f :: _ =>
       (match evalStep fuel st (.expr f) with
        | (st1, .ok front) =>
          let st2 :=
            match (deref st1.store f).ty, (deref st1.store front).ty with
            | .sym s _, .lam _ _ _ => { st1 with fnStack := st1.fnStack ++ [s] }
            | .sym s _, .prim _ => { st1 with fnStack := st1.fnStack ++ [s] }
            | _, _ => st1
          (match
            (match (deref st2.store front).ty with
             | .prim p => applyPrim st2 p c
             | .lam env ps bd => evalStep fuel st2 (.lambdaApp env ps bd c)
             | other => (st2, .err ⟨.NotCallable other.type_string, st2.fnStack⟩)) with
           | (st3, .ok v) => ({ st3 with fnStack := st3.fnStack.dropLast }, .ok v)
           | other => other)
        | other => other))
  | fuel + 1, st, .lambdaApp lenv ps bd exp =>
    (match (deref st.store ps).ty with
     | .cons params =>
       if params.length ≠ exp.length - 1 then
         (st, .err ⟨.WrongArgsNum params.length (exp.length - 1), st.fnStack⟩)
       else
         let stA := { st with env := Environment.push st.env }
         let stB :=
           match lenv with
           | some e =>
             e.foldl (fun s p => { s with env := Environment.insert_sym s.env p.1 p.2 })
               { stA with env := Environment.push stA.env }
           | none => stA
         (match bindParams stB params exp with
          | .panic m => (stB, .panic m)
          | .ok stC =>
            (match (deref stC.store bd).ty with
             | .cons body =>
               (match evalStep fuel stC (.bodySeq body (.ok stC.nilA)) with
                | (stD, .ok v) =>
                  (match (deref stD.store v).ty with
                   | .lam _ lp lb =>
                     (match stD.env.getLast? with
                      | some captured =>
                        let stE := { stD with env := stD.env.dropLast }
                        let rE := stE.new_object (.lam (some captured) lp lb)
                        (match popScope rE.1 with
                         | .ok stF => (stF, .ok rE.2)
                         | .panic m => (rE.1, .panic m))
                      | none => (stD, .panic "called Option::unwrap on a None value"))
                   | .prim _ =>
                     (match popScope stD with
                      | .ok stF => (stF, .ok v)
                      | .panic m => (stD, .panic m))
                   | _ =>
                     let inter :=
                       match lenv with
                       | some _ => popScope stD
                       | none => .ok stD
                     (match inter with
                      | .ok stE =>
                        (match popScope stE with
                         | .ok stF => (stF, .ok v)
                         | .panic m => (stE, .panic m))
                      | .panic m => (stD, .panic m)))
                | (stD, .err _) => (stD, .panic "called Result::unwrap on an Err value")
                | other => other)
             | _ => (stC, .panic "object is not a list")))
     | _ => (st, .panic "object is not a list"))
  | fuel + 1, st, .bodySeq body last =>
    (match body with
     | [] => (st, last)
     | b :: rest =>
       (match evalStep fuel st (.expr b) with
        | (st1, .ok v) => evalStep fuel st1 (.bodySeq rest (.ok v))
        | other => other))

/-- `Interpreter::eval`, the public entry point, at a given fuel. -/
def eval (fuel : Nat) (st : Interp) (a : Nat) : Interp × Res Nat :=
  evalStep fuel st (.expr a)

/-! ## Lemmas about the mark phase -/

theorem markStack_cons_none (f : Nat) (store : List Obj) (a : Nat) (rest : List Nat)
    (hn : nthObj store a = none) :
    markStack (f + 1) store (a :: rest) = markStack f store rest := by
  simp [markStack, hn]

theorem markStack_cons_marked (f : Nat) (store : List Obj) (a : Nat) (rest : List Nat)
    (o : Obj) (hn : nthObj store a = some o) (hm : o.marked = true) :
    markStack (f + 1) store (a :: rest) = markStack f store rest := by
  simp [markStack, hn, hm]

theorem markStack_cons_unmarked (f : Nat) (store : List Obj) (a : Nat) (rest : List Nat)
    (o : Obj) (hn : nthObj store a = some o) (hm : o.marked = false) :
    markStack (f + 1) store (a :: rest) =
      markStack f (setMark store a) (children o.ty ++ rest) := by
  simp [markStack, hn, hm]

theorem weight_setMark : ∀ (store : List Obj) (a : Nat) (o : Obj),
    nthObj store a = some o → o.marked = false →
    weight (setMark store a) + (1 + (children o.ty).length) = weight store := by
  intro store
  induction store with
  | nil => intro a o h _; simp [nthObj] at h
  | cons x t ih =>
    intro a o h hm
    cases a with
    | zero =>
      simp [nthObj] at h
      subst h
      simp [setMark, weight, hm]
      omega
    | succ n =>
      simp only [nthObj] at h
      have := ih n o h hm
      simp only [setMark, weight]
      cases hx : x.marked <;> simp [hx] <;> omega

theorem setMark_length : ∀ (store : List Obj) (a : Nat),
    (setMark store a).length = store.length := by
  intro store
  induction store with
  | nil => intro a; rfl
  | cons x t ih =>
    intro a
    cases a with
    | zero => rfl
    | succ n => simp [setMark, ih n]

theorem clearMark_length : ∀ (store : List Obj) (a : Nat),
    (clearMark store a).length = store.length := by
  intro store
  induction store with
  | nil => intro a; rfl
  | cons x t ih =>
    intro a
    cases a with
    | zero => rfl
    | succ n => simp [clearMark, ih n]

theorem nthObj_setMark_self : ∀ (store : List Obj) (a : Nat) (o : Obj),
    nthObj store a = some o → nthObj (setMark store a) a = some ⟨o.ty, true⟩ := by
  intro store
  induction store with
  | nil => intro a o h; simp [nthObj] at h
  | cons x t ih =>
    intro a o h
    cases a with
    | zero =>
      simp [nthObj] at h
      subst h
      rfl
    | succ n =>
      simp only [nthObj] at h
      exact ih n o h

theorem nthObj_setMark_ne : ∀ (store : List Obj) (a x : Nat), x ≠ a →
    nthObj (setMark store a) x = nthObj store x := by
  intro store
  induction store with
  | nil => intro a x _; simp [setMark]
  | cons h t ih =>
    intro a x hne
    cases a with
    | zero =>
      cases x with
      | zero => exact absurd rfl hne
      | succ m => rfl
    | succ n =>
      cases x with
      | zero => rfl
      | succ m => exact ih n m (by omega)

theorem nthObj_clearMark_self : ∀ (store : List Obj) (a : Nat) (o : Obj),
    nthObj store a = some o → nthObj (clearMark store a) a = some ⟨o.ty, false⟩ := by
  intro store
  induction store with
  | nil => intro a o h; simp [nthObj] at h
  | cons x t ih =>
    intro a o h
    cases a with
    | zero =>
      simp [nthObj] at h
      subst h
      rfl
    | succ n =>
      simp only [nthObj] at h
      exact ih n o h

theorem nthObj_clearMark_ne : ∀ (store : List Obj) (a x : Nat), x ≠ a →
    nthObj (clearMark store a) x = nthObj store x := by
  intro store
  induction store with
  | nil => intro a x _; simp [clearMark]
  | cons h t ih =>
    intro a x hne
    cases a with
    | zero =>
      cases x with
      | zero => exact absurd rfl hne
      | succ m => rfl
    | succ n =>
      cases x with
      | zero => rfl
      | succ m => exact ih n m (by omega)

theorem markStack_sufficient : ∀ (fuel : Nat) (store : List Obj) (stack : List Nat),
    stack.length + weight store ≤ fuel → (markStack fuel store stack).isSome = true := by
  intro fuel
  induction fuel with
  | zero =>
    intro store stack h
    cases stack with
    | nil => rfl
    | cons a rest => simp [List.length] at h
  | succ f ih =>
    intro store stack h
    cases stack with
    | nil => rfl
    | cons a rest =>
      cases hn : nthObj store a with
      | none =>
        rw [markStack_cons_none f store a rest hn]
        exact ih store rest (by simp only [List.length_cons] at h; omega)
      | some o =>
        cases hm : o.marked with
        | true =>
          rw [markStack_cons_marked f store a rest o hn hm]
          exact ih store rest (by simp only [List.length_cons] at h; omega)
        | false =>
          rw [markStack_cons_unmarked f store a rest o hn hm]
          have hw := weight_setMark store a o hn hm
          apply ih
          simp only [List.length_append, List.length_cons] at h ⊢
          omega

/-- The object at address `x` exists and is marked. -/
def markedAt (store : List Obj) (x : Nat) : Prop :=
  (nthObj store x).map Obj.marked = some true

theorem markStack_markedAt : ∀ (fuel : Nat) (store : List Obj) (stack : List Nat)
    (s' : List Obj), markStack fuel store stack = some s' →
    ∀ x, markedAt store x → markedAt s' x := by
  intro fuel
  induction fuel with
  | zero =>
    intro store stack s' h x hx
    cases stack with
    | nil => injection h with h; subst h; exact hx
    | cons a rest => simp [markStack] at h
  | succ f ih =>
    intro store stack s' h x hx
    cases stack with
    | nil => injection h with h; subst h; exact hx
    | cons a rest =>
      cases hn : nthObj store a with
      | none =>
        rw [markStack_cons_none f store a rest hn] at h
        exact ih store rest s' h x hx
      | some o =>
        cases hm : o.marked with
        | true =>
          rw [markStack_cons_marked f store a rest o hn hm] at h
          exact ih store rest s' h x hx
        | false =>
          rw [markStack_cons_unmarked f store a rest o hn hm] at h
          refine ih _ _ _ h x ?_
          unfold markedAt at hx ⊢
          by_cases hxa : x = a
          · subst hxa
            rw [nthObj_setMark_self store x o hn]
            rfl
          · rw [nthObj_setMark_ne store a x hxa]
            exact hx

theorem markStack_length : ∀ (fuel : Nat) (store : List Obj) (stack : List Nat)
    (s' : List Obj), markStack fuel store stack = some s' →
    s'.length = store.length := by
  intro fuel
  induction fuel with
  | zero =>
    intro store stack s' h
    cases stack with
    | nil => injection h with h; subst h; rfl
    | cons a rest => simp [markStack] at h
  | succ f ih =>
    intro store stack s' h
    cases stack with
    | nil => injection h with h; subst h; rfl
    | cons a rest =>
      cases hn : nthObj store a with
      | none =>
        rw [markStack_cons_none f store a rest hn] at h
        exact ih store rest s' h
      | some o =>
        cases hm : o.marked with
        | true =>
          rw [markStack_cons_marked f store a rest o hn hm] at h
          exact ih store rest s' h
        | false =>
          rw [markStack_cons_unmarked f store a rest o hn hm] at h
          rw [ih _ _ _ h, setMark_length]

/-! ## Lemmas about the sweep phase and `gc` -/

theorem sweep_cons_none (store : List Obj) (a : Nat) (rest : List Nat) (bytes : Nat)
    (hn : nthObj store a = none) :
    sweep store (a :: rest) bytes =
      ⟨(sweep store rest bytes).store, a :: (sweep store rest bytes).live,
       (sweep store rest bytes).bytes, (sweep store rest bytes).count⟩ := by
  simp [sweep, hn]

theorem sweep_cons_marked (store : List Obj) (a : Nat) (rest : List Nat) (bytes : Nat)
    (o : Obj) (hn : nthObj store a = some o) (hm : o.marked = true) :
    sweep store (a :: rest) bytes =
      ⟨(sweep (clearMark store a) rest bytes).store,
       a :: (sweep (clearMark store a) rest bytes).live,
       (sweep (clearMark store a) rest bytes).bytes,
       (sweep (clearMark store a) rest bytes).count⟩ := by
  simp [sweep, hn, hm]

theorem sweep_cons_unmarked (store : List Obj) (a : Nat) (rest : List Nat) (bytes : Nat)
    (o : Obj) (hn : nthObj store a = some o) (hm : o.marked = false) :
    sweep store (a :: rest) bytes =
      ⟨(sweep store rest (bytes - o.ty.size_of)).store,
       (sweep store rest (bytes - o.ty.size_of)).live,
       (sweep store rest (bytes - o.ty.size_of)).bytes,
       (sweep store rest (bytes - o.ty.size_of)).count + 1⟩ := by
  simp [sweep, hn, hm]

theorem sweep_store_length : ∀ (live : List Nat) (store : List Obj) (bytes : Nat),
    (sweep store live bytes).store.length = store.length := by
  intro live
  induction live with
  | nil => intro store bytes; rfl
  | cons a rest ih =>
    intro store bytes
    cases hn : nthObj store a with
    | none => rw [sweep_cons_none store a rest bytes hn]; exact ih store bytes
    | some o =>
      cases hm : o.marked with
      | true =>
        rw [sweep_cons_marked store a rest bytes o hn hm]
        show (sweep (clearMark store a) rest bytes).store.length = store.length
        rw [ih, clearMark_length]
      | false =>
        rw [sweep_cons_unmarked store a rest bytes o hn hm]
        exact ih store _

theorem sweep_live_subset : ∀ (live : List Nat) (store : List Obj) (bytes : Nat)
    (x : Nat), x ∈ (sweep store live bytes).live → x ∈ live := by
  intro live
  induction live with
  | nil => intro store bytes x h; simp [sweep] at h
  | cons a rest ih =>
    intro store bytes x h
    cases hn : nthObj store a with
    | none =>
      rw [sweep_cons_none store a rest bytes hn] at h
      simp only [List.mem_cons] at h ⊢
      rcases h with h | h
      · exact Or.inl h
      · exact Or.inr (ih _ _ _ h)
    | some o =>
      cases hm : o.marked with
      | true =>
        rw [sweep_cons_marked store a rest bytes o hn hm] at h
        simp only [List.mem_cons] at h ⊢
        rcases h with h | h
        · exact Or.inl h
        · exact Or.inr (ih _ _ _ h)
      | false =>
        rw [sweep_cons_unmarked store a rest bytes o hn hm] at h
        exact List.mem_cons_of_mem a (ih _ _ _ h)

theorem sweep_last : ∀ (xs : List Nat) (store : List Obj) (bytes : Nat) (a : Nat)
    (o : Obj), (∀ x ∈ xs, x ≠ a) → nthObj store a = some o → o.marked = true →
    a ∈ (sweep store (xs ++ [a]) bytes).live ∧
    (nthObj (sweep store (xs ++ [a]) bytes).store a).map Obj.marked = some false := by
  intro xs
  induction xs with
  | nil =>
    intro store bytes a o _ ho hm
    rw [List.nil_append, sweep_cons_marked store a [] bytes o ho hm]
    constructor
    · exact List.mem_cons_self a _
    · show (nthObj (sweep (clearMark store a) [] bytes).store a).map Obj.marked = some false
      rw [show (sweep (clearMark store a) [] bytes).store = clearMark store a from rfl]
      rw [nthObj_clearMark_self store a o ho]
      rfl
  | cons x rest ih =>
    intro store bytes a o hne ho hm
    have hxa : x ≠ a := hne x (List.mem_cons_self x rest)
    have hrest : ∀ y ∈ rest, y ≠ a := fun y hy => hne y (List.mem_cons_of_mem x hy)
    rw [List.cons_append]
    cases hn : nthObj store x with
    | none =>
      rw [sweep_cons_none store x (rest ++ [a]) bytes hn]
      have := ih store bytes a o hrest ho hm
      exact ⟨List.mem_cons_of_mem x this.1, this.2⟩
    | some ox =>
      cases hmx : ox.marked with
      | true =>
        rw [sweep_cons_marked store x (rest ++ [a]) bytes ox hn hmx]
        have ho' : nthObj (clearMark store x) a = some o := by
          rw [nthObj_clearMark_ne store x a (fun h => hxa h.symm)]
          exact ho
        have := ih (clearMark store x) bytes a o hrest ho' hm
        exact ⟨List.mem_cons_of_mem x this.1, this.2⟩
      | false =>
        rw [sweep_cons_unmarked store x (rest ++ [a]) bytes ox hn hmx]
        exact ih store _ a o hrest ho hm

theorem gc_gcThreshold (st : Interp) : st.gc.1.gcThreshold = st.gcThreshold := by
  unfold Interp.gc
  by_cases h : st.gcDisabled <;> simp [h, Interp.mark_all]

theorem gc_gcDisabled (st : Interp) : st.gc.1.gcDisabled = st.gcDisabled := by
  unfold Interp.gc
  by_cases h : st.gcDisabled <;> simp [h, Interp.mark_all]

theorem mark_all_store_length (st : Interp) :
    st.mark_all.store.length = st.store.length := by
  unfold Interp.mark_all
  cases hm : markStack (st.roots.length + weight st.store) st.store st.roots with
  | none => simp [hm]
  | some s' => simpa [hm] using markStack_length _ _ _ _ hm

theorem mark_all_markedAt (st : Interp) (x : Nat) (h : markedAt st.store x) :
    markedAt st.mark_all.store x := by
  unfold Interp.mark_all
  cases hm : markStack (st.roots.length + weight st.store) st.store st.roots with
  | none => simpa [hm] using h
  | some s' =>
    simp only [hm, Option.getD_some]
    exact markStack_markedAt _ _ _ _ hm x h

theorem gc_store_length (st : Interp) : st.gc.1.store.length = st.store.length := by
  unfold Interp.gc
  by_cases h : st.gcDisabled
  · simp [h]
  · simp only [h, Bool.false_eq_true, if_false]
    rw [show (sweep st.mark_all.store st.mark_all.live st.mark_all.bytesAlloc).store.length
          = st.mark_all.store.length from sweep_store_length _ _ _]
    exact mark_all_store_length st

theorem gc_live_subset (st : Interp) (x : Nat) (h : x ∈ st.gc.1.live) :
    x ∈ st.live := by
  unfold Interp.gc at h
  by_cases hd : st.gcDisabled
  · simpa [hd] using h
  · simp only [hd, Bool.false_eq_true, if_false] at h
    have := sweep_live_subset _ _ _ _ h
    simpa [Interp.mark_all] using this

/-- Survival through one collection of an object that sits at the end of the
live vector, is not aliased earlier in it, and is marked when the sweep
starts: it is kept, and its mark bit is cleared. -/
theorem gc_keeps_marked (st : Interp) (xs : List Nat) (a : Nat) (o : Obj)
    (hlive : st.live = xs ++ [a]) (hne : ∀ x ∈ xs, x ≠ a)
    (ho : nthObj st.store a = some o) (hm : o.marked = true)
    (hd : st.gcDisabled = false) :
    a ∈ st.gc.1.live ∧ (nthObj st.gc.1.store a).map Obj.marked = some false := by
  unfold Interp.gc
  simp only [hd, Bool.false_eq_true, if_false]
  have hm' : markedAt st.mark_all.store a :=
    mark_all_markedAt st a (by simp [markedAt, ho, hm])
  unfold markedAt at hm'
  rw [Option.map_eq_some'] at hm'
  obtain ⟨o', ho', hmo'⟩ := hm'
  have hl : st.mark_all.live = xs ++ [a] := by simpa [Interp.mark_all] using hlive
  rw [hl]
  exact sweep_last xs _ _ a o' hne ho' hmo'

theorem nthObj_append_length : ∀ (l : List Obj) (x : Obj),
    nthObj (l ++ [x]) l.length = some x := by
  intro l x
  induction l with
  | nil => rfl
  | cons h t ih => simpa [nthObj] using ih

theorem allocState_gcDisabled (st : Interp) (t : Ty) :
    (allocState st t).gcDisabled = st.gcDisabled := by
  unfold allocState
  dsimp only
  split
  · rw [gc_gcDisabled]
  · rfl

theorem allocState_store_length (st : Interp) (t : Ty) :
    (allocState st t).store.length = st.store.length := by
  unfold allocState
  dsimp only
  split
  · rw [gc_store_length]
  · rfl

theorem allocState_live_valid (st : Interp) (t : Ty)
    (h : ∀ x ∈ st.live, x < st.store.length) :
    ∀ x ∈ (allocState st t).live, x < (allocState st t).store.length := by
  intro x hx
  rw [allocState_store_length]
  unfold allocState at hx
  dsimp only at hx
  split at hx
  · have hx' := gc_live_subset _ x hx
    exact h x hx'
  · exact h x hx

/-- The step shared by every allocation: append a freshly constructed
(mark-bit-set) object to the store and live vector of any state, then
collect once; the fresh object survives and ends up with its mark cleared. -/
theorem alloc_then_gc_keeps (st2 : Interp) (t : Ty)
    (hd : st2.gcDisabled = false)
    (hvalid : ∀ x ∈ st2.live, x < st2.store.length) :
    st2.store.length ∈ (pushObj st2 t).gc.1.live ∧
    (nthObj (pushObj st2 t).gc.1.store st2.store.length).map Obj.marked
      = some false := by
  apply gc_keeps_marked _ st2.live st2.store.length (Object.new t)
  · rfl
  · intro x hx
    exact Nat.ne_of_lt (hvalid x hx)
  · exact nthObj_append_length st2.store (Object.new t)
  · rfl
  · exact hd

/-! ## Concrete states used by the claims -/

/-- A root scope binding `f` to a zero-parameter lambda whose single body
form is the unbound symbol `y`, plus the form `(f)` at address 8. -/
def c2_state : Interp :=
  { Interp.new with
    store := Interp.new.store ++
      [Object.new (.sym "f" 1),
       Object.new (.cons []),
       Object.new (.sym "y" 1),
       Object.new (.cons [5]),
       Object.new (.lam none 4 6),
       Object.new (.cons [3])],
    env := [[("f", 7)]] }

/-- A root scope binding `f` to a captureless zero-parameter lambda whose
single body form is a lambda object (address 5), plus the form `(f)`. -/
def c3_state : Interp :=
  { Interp.new with
    store := Interp.new.store ++
      [Object.new (.sym "f" 1),
       Object.new (.cons []),
       Object.new (.lam none 4 4),
       Object.new (.cons [5]),
       Object.new (.lam none 4 6),
       Object.new (.cons [3])],
    env := [[("f", 7)]] }

/-- A root scope binding `+` to the `add` primitive, plus the form
`(+ 2 3.0)` at address 6. -/
def c4_state : Interp :=
  { Interp.new with
    store := Interp.new.store ++
      [Object.new (.sym "+" 1),
       Object.new (.int 2),
       Object.new (.float 3),
       Object.new (.cons [3, 4, 5]),
       Object.new (.prim .add)],
    env := [[("+", 7)]] }

/-- A fresh interpreter with collection disabled and ten unreachable strings
allocated (none of them bound in any scope). -/
def c6_disabled : Interp :=
  (List.range 10).foldl (fun s _ => (s.new_object (.str "foobar" 6)).1)
    Interp.new.gc_disable

/-- `c6_disabled` after `gc_enable`. -/
def c6_state : Interp := c6_disabled.gc_enable

/-- A state holding one unreachable, unmarked 8-byte object, with the
accounted counter just under a crossing of the threshold. -/
def c7_state : Interp :=
  { store := [⟨.int 3, false⟩], live := [0], fnStack := [], env := [[]],
    nilA := 0, trueA := 0, falseA := 0, gcDisabled := false,
    bytesAlloc := 1000, gcThreshold := 900 }

/-- A cyclic object graph: the lambda at address 2 captures an environment
binding `self` to address 2 itself; addresses 0 and 1 are its (empty)
parameter and body lists.  All marks are clear, as after a completed
collection. -/
def cycStore : List Obj :=
  [⟨.cons [], false⟩, ⟨.cons [], false⟩, ⟨.lam (some [("self", 2)]) 0 1, false⟩]

/-- `cycStore` rooted through a binding of `f` to the cyclic lambda. -/
def cycState : Interp :=
  { store := cycStore, live := [0, 1, 2], fnStack := [], env := [[("f", 2)]],
    nilA := 0, trueA := 0, falseA := 0, gcDisabled := false,
    bytesAlloc := 72, gcThreshold := 1000 }

/-- `cycStore` with the cyclic lambda already marked. -/
def cycStoreMarked : List Obj :=
  [⟨.cons [], false⟩, ⟨.cons [], false⟩, ⟨.lam (some [("self", 2)]) 0 1, true⟩]

/-- A state holding the integer 0 at address 0 (the operand list `[0]` for
the division primitive). -/
def c10_state : Interp :=
  { store := [⟨.int 0, true⟩], live := [0], fnStack := [], env := [[]],
    nilA := 0, trueA := 0, falseA := 0, gcDisabled := false,
    bytesAlloc := 8, gcThreshold := 1000 }

/-! ## The claims -/

/-- C1: the claim says lookup scans the scopes innermost to outermost with
shadowing and fails with `SymbolNotFound` exactly when no scope contains the
name.  In the code, `find_sym`'s loop `for i in self.0.len()-1..0` is an
empty Rust range, so whenever the stack holds more than the root scope the
lookup returns `SymbolNotFound` even for a name bound in *both* the root and
the pushed child scope; only the single-scope path works. -/
theorem C1_find_sym_multi_scope_always_fails :
    find_sym [[("x", 10)], [("x", 20)]] "x" = .error (.SymbolNotFound "x") ∧
    find_sym [[("x", 10)]] "x" = .ok 10 := by
  constructor
  · rfl
  · rfl

/-- C2: the claim says the first failing body form aborts the sequence and
that error is returned to the caller as an ordinary `Err`.  In the code the
body loop does break on the error, but `eval_lambda` then immediately calls
`last.as_ref().unwrap()`, so evaluating `(f)` — `f` a zero-parameter lambda
whose body is an unbound symbol — panics instead of returning the error. -/
theorem C2_eval_lambda_panics_on_body_error :
    (eval 10 c2_state 8).2 = .panic "called Result::unwrap on an Err value" := by
  rfl

/-- C3: the claim says every scope pushed by a lambda application is popped
again on both success and failure paths.  In the code, applying a captureless
zero-parameter lambda whose body evaluates to a lambda object succeeds but
runs both `cur_env_pop()` and the final `pop()` after pushing only one scope:
the environment's depth drops from 1 (just the root) to 0, i.e. the caller's
root scope is gone.  (On the failure path the function panics before popping
at all, per `C2_eval_lambda_panics_on_body_error`.) -/
theorem C3_eval_lambda_pops_root_scope :
    c3_state.env.length = 1 ∧
    (eval 10 c3_state 8).2 = .ok 9 ∧
    (eval 10 c3_state 8).1.env.length = 0 := by
  refine ⟨rfl, rfl, rfl⟩

/-- C4: the claim says arithmetic primitives evaluate each operand and fold
the results, so `(+ 2 3.0)` yields `5.0` and `(+)` yields `0`.  In the code
`eval_cons` hands the primitive the *entire* form — operator element
included — and `Interpreter::add` folds that list without evaluating
anything, so evaluating `(+ 2 3.0)` fails with
`WrongType(numberp, symbol)` on the `+` symbol itself (the second conjunct
shows the fold alone would indeed promote `2 + 3.0` to the float `5.0`,
so the failure is the calling convention, not the fold). -/
theorem C4_plus_two_three_fails_wrongtype :
    (eval 10 c4_state 6).2 = .err ⟨.WrongType "numberp" "symbol", ["+"]⟩ ∧
    add_list [.int 2, .float 3] = .ok (.ok (.float 5)) := by
  refine ⟨rfl, ?_⟩
  show add_fold (.int 0) [.int 2, .float 3] = .ok (.ok (.float 5))
  simp only [add_fold, objAdd]
  norm_num

/-- C5: the claim (and spec §9) says addition seeds its fold with 0,
multiplication with 1, and subtraction/division with the first operand.  In
the code all four folds seed with `Integer(0)`: the product of `[2, 3]` is
forced to 0, dividing `[2]` yields `0/2 = 0`, and subtracting `[5]` yields
`0 - 5 = -5` instead of `5`; only addition's seed matches the claim. -/
theorem C5_mul_div_sub_seed_zero :
    mul_list [.int 2, .int 3] = .ok (.ok (.int 0)) ∧
    div_list [.int 2] = .ok (.ok (.int 0)) ∧
    sub_list [.int 5] = .ok (.ok (.int (-5))) ∧
    add_list [] = .ok (.ok (.int 0)) := by
  refine ⟨by decide, by decide, by decide, by decide⟩

/-- C6: the claim says a disabled `collect()` is a no-op returning 0 (true:
first conjunct) and that after re-enabling, a *single* collection reclaims
all N unreachable objects.  In the code every object is born with its mark
bit set and a disabled `gc` clears nothing, so the first enabled collection
reclaims 0 of the 10 unreachable objects (merely clearing their marks) and
only the second reclaims all 10 — the repo's own `test_gc`
(`assert_eq!(interpreter.gc(), 10)` right after re-enabling) fails on this. -/
theorem C6_first_collection_after_enable_reclaims_nothing :
    c6_disabled.gc = (c6_disabled, 0) ∧
    c6_state.gc.2 = 0 ∧
    c6_state.gc.1.live.length = 10 ∧
    c6_state.gc.1.gc.2 = 10 := by
  refine ⟨rfl, rfl, rfl, rfl⟩

/-- C7 counterexample: the claim says each collection cycle *ends* by setting
the threshold to half of the *post-sweep* accounted size.  Allocating an
8-byte integer in `c7_state` (1000 accounted bytes, threshold 900, one
unreachable unmarked 8-byte object) triggers a collection: the final
threshold is 504 = half of the pre-sweep 1008, while the post-sweep accounted
size is 1000, and 504 ≠ 1000 / 2. -/
theorem C7_threshold_not_half_post_sweep :
    (c7_state.new_object (.int 7)).1.gcThreshold = 504 ∧
    (c7_state.new_object (.int 7)).1.bytesAlloc = 1000 ∧
    (504 : Nat) ≠ 1000 / 2 := by
  refine ⟨rfl, rfl, by decide⟩

/-- C7 amended: the threshold is recomputed at *allocation* time, before the
triggered collection runs, as half of the pre-sweep accounted size including
the new allocation; the collection itself never modifies the threshold. -/
theorem C7_amended_threshold_half_pre_sweep (st : Interp) (t : Ty)
    (h : st.gcThreshold < st.bytesAlloc + t.size_of) :
    (st.new_object t).1.gcThreshold = (st.bytesAlloc + t.size_of) / 2 ∧
    ∀ s : Interp, s.gc.1.gcThreshold = s.gcThreshold := by
  constructor
  · show (allocState st t).gcThreshold = (st.bytesAlloc + t.size_of) / 2
    unfold allocState
    dsimp only
    rw [if_pos h, gc_gcThreshold]
  · exact fun s => gc_gcThreshold s

/-- Witness for `C7_amended_threshold_half_pre_sweep` at `c7_state` and an
8-byte integer payload. -/
theorem C7_amended_threshold_half_pre_sweep_witness :
    (c7_state.new_object (.int 7)).1.gcThreshold = (c7_state.bytesAlloc + (Ty.int 7).size_of) / 2 ∧
    c7_state.gc.1.gcThreshold = c7_state.gcThreshold := by
  have h := C7_amended_threshold_half_pre_sweep c7_state (.int 7) (by decide)
  exact ⟨h.1, h.2 c7_state⟩

/-- C8: the mark phase terminates on every object graph — a fuel of
`stack.length + weight store` always suffices — because the mark-bit check
skips an already-marked object without recursing (second conjunct), and
collecting a rooted lambda whose captured environment contains that same
lambda terminates, reclaims nothing and keeps the lambda live (third
conjunct). -/
theorem C8_mark_terminates_and_cycle_safe :
    (∀ (fuel : Nat) (store : List Obj) (stack : List Nat),
        stack.length + weight store ≤ fuel → (markStack fuel store stack).isSome = true) ∧
    (∀ (fuel : Nat) (store : List Obj) (a : Nat) (rest : List Nat) (o : Obj),
        nthObj store a = some o → o.marked = true →
        markStack (fuel + 1) store (a :: rest) = markStack fuel store rest) ∧
    (cycState.gc.2 = 0 ∧ 2 ∈ cycState.gc.1.live) := by
  refine ⟨markStack_sufficient, markStack_cons_marked, rfl, by decide⟩

/-- Witness for `C8_mark_terminates_and_cycle_safe`: marking the cyclic
store from its root succeeds within the computed fuel bound, and the
mark-bit check skips the already-marked lambda at address 2. -/
theorem C8_mark_terminates_and_cycle_safe_witness :
    (markStack 7 cycStore [2]).isSome = true ∧
    markStack 4 cycStoreMarked [2, 0, 1] = markStack 3 cycStoreMarked [0, 1] := by
  refine ⟨C8_mark_terminates_and_cycle_safe.1 7 cycStore [2] (by decide),
          C8_mark_terminates_and_cycle_safe.2.1 3 cycStoreMarked 2 [0, 1]
            ⟨.lam (some [("self", 2)]) 0 1, true⟩ (by decide) (by decide)⟩

/-- C9: every `Object` is born with its mark bit set, so whatever state the
interpreter is in (collection enabled, live addresses valid), a freshly
allocated object survives the first collection that runs after its
allocation, which merely clears its mark bit; the concrete third conjunct
shows that for an unreachable fresh integer the first collection reclaims
nothing and the second reclaims it. -/
theorem C9_fresh_object_survives_first_gc (st : Interp) (t : Ty)
    (hd : st.gcDisabled = false)
    (hvalid : ∀ x ∈ st.live, x < st.store.length) :
    ((st.new_object t).2 ∈ (st.new_object t).1.gc.1.live ∧
     (nthObj (st.new_object t).1.gc.1.store (st.new_object t).2).map Obj.marked
       = some false) ∧
    ((Interp.new.new_object (.int 5)).1.gc.2 = 0 ∧
     (Interp.new.new_object (.int 5)).1.gc.1.gc.2 = 1) := by
  constructor
  · have hd' : (allocState st t).gcDisabled = false := by
      rw [allocState_gcDisabled]; exact hd
    have hv' := allocState_live_valid st t hvalid
    exact alloc_then_gc_keeps (allocState st t) t hd' hv'
  · exact ⟨rfl, rfl⟩

/-- Witness for `C9_fresh_object_survives_first_gc` at the fresh interpreter
and an integer payload. -/
theorem C9_fresh_object_survives_first_gc_witness :
    ((Interp.new.new_object (.int 5)).2 ∈ (Interp.new.new_object (.int 5)).1.gc.1.live ∧
     (nthObj (Interp.new.new_object (.int 5)).1.gc.1.store
        (Interp.new.new_object (.int 5)).2).map Obj.marked = some false) ∧
    ((Interp.new.new_object (.int 5)).1.gc.2 = 0 ∧
     (Interp.new.new_object (.int 5)).1.gc.1.gc.2 = 1) := by
  exact C9_fresh_object_survives_first_gc Interp.new (.int 5) rfl
    (fun x hx => absurd hx (List.not_mem_nil x))

/-- C10: applying the division primitive to the operand list `[0]` panics —
`div_list`'s accumulator starts at `Integer(0)`, so the very first integer
operand 0 computes `0 / 0`, an unguarded Rust integer division by zero —
instead of returning an error value. -/
theorem C10_div_by_zero_operand_panics :
    (c10_state.div [0]).2 = .panic "attempt to divide by zero" ∧
    div_list [.int 0] = .panic "attempt to divide by zero" := by
  refine ⟨rfl, rfl⟩

end Skeem
